import Mathlib

/-!
Shallow embedding of the Pattern Execution Orchestrator core of the
fabric streamlit UI (src/streamlit.py): input guard, process runner,
metadata cache, pattern matcher, chain executor and history store.
All machine strings are modelled as Lean `String` / `List Char`.
-/

namespace Fabric

/-- Code points of the characters Python treats as whitespace
(`str.split()` with no separator, `str.strip()`, `str.isspace`). -/
def pySpaceCodes : List Nat :=
  [9, 10, 11, 12, 13, 28, 29, 30, 31, 32, 133, 160, 5760, 8192, 8193, 8194,
   8195, 8196, 8197, 8198, 8199, 8200, 8201, 8202, 8232, 8233, 8239, 8287, 12288]

/-- Python whitespace test on a character. -/
def isPySpace (c : Char) : Bool := pySpaceCodes.contains c.toNat

/-- Python `str.strip()` on a character list: drop whitespace at both ends. -/
def pyStripList (l : List Char) : List Char :=
  ((l.dropWhile isPySpace).reverse.dropWhile isPySpace).reverse

/-- Python `str.strip()` on a string. -/
def pyStrip (s : String) : String := String.mk (pyStripList s.data)

/-- Python `str.split()` with no separator: maximal runs of
non-whitespace characters, empty pieces discarded. -/
def pyWordsList (l : List Char) : List (List Char) :=
  (l.splitOnP isPySpace).filter (fun w => !w.isEmpty)

/-- `sanitize_input_content` character step: characters below code point 32
other than tab, newline and carriage return become a space. -/
def sanitizeChar (c : Char) : Char :=
  if c = Char.ofNat 10 ∨ c = Char.ofNat 9 ∨ c = Char.ofNat 13 ∨ 32 ≤ c.toNat then c
  else Char.ofNat 32

/-- Python `" ".join(ws)`: concatenate with a single space between
consecutive pieces. -/
def joinSp : List (List Char) → List Char
  | [] => []
  | [w] => w
  | w :: v :: ws => w ++ Char.ofNat 32 :: joinSp (v :: ws)

/-- `sanitize_input_content` from src/streamlit.py on a character list:
remove null characters, replace remaining low control characters by a
space, then `" ".join(text.split())`. -/
def sanitizeList (l : List Char) : List Char :=
  let t1 := l.filter (fun c => c ≠ Char.ofNat 0)
  let t2 := t1.map sanitizeChar
  joinSp (pyWordsList t2)

/-- `sanitize_input_content` from src/streamlit.py. -/
def sanitize_input_content (s : String) : String := String.mk (sanitizeList s.data)

/-- The special character set of `validate_input_content`
(the characters of the Python literal, by code point). -/
def specialCharCodes : List Nat :=
  [33, 64, 35, 36, 37, 94, 38, 42, 40, 41, 95, 43, 91, 93, 123, 125, 124, 92,
   59, 58, 39, 34, 44, 46, 60, 62, 63, 96, 126]

/-- UTF-8 byte length of a character list. -/
def utf8Len (l : List Char) : Nat := l.foldl (fun n c => n + c.utf8Size) 0

/-- `validate_input_content` from src/streamlit.py. The special character
check `count / len > 0.3` is embedded as `10 * count > 3 * len`. -/
def validate_input_content (s : String) : Bool × String :=
  let l := s.data
  if l.isEmpty ∨ l.all isPySpace then
    (false, "Input content cannot be empty.")
  else if (pyStripList l).length < 2 then
    (false, "Input content must be at least 2 characters long.")
  else if 100 * 1024 < utf8Len l then
    (false, "Input content exceeds maximum size of 100KB.")
  else if 3 * l.length < 10 * (l.filter (fun c => specialCharCodes.contains c.toNat)).length then
    (false, "Input contains too many special characters.")
  else if l.any (fun c => c.toNat < 32 ∧ ¬ (c.toNat = 9 ∨ c.toNat = 10 ∨ c.toNat = 13)) then
    (false, "Input contains invalid control characters.")
  else
    (true, "")

/-! ## Process Runner (`safe_run_command`) -/

def MAX_RETRIES : Nat := 3

/-- Outcome of one attempt to run the external command: the process ran
and exited with a code (capturing stdout/stderr), or the invocation
itself raised an exception. -/
inductive AttemptOutcome where
  | exit (code : Int) (stdout : String) (stderr : String)
  | exn (msg : String)
deriving DecidableEq

/-- An attempt counts as failed unless the process exited with code 0. -/
def attemptFailed : AttemptOutcome → Bool
  | .exit code _ _ => code != 0
  | .exn _ => true

/-- The error text the runner reports for a failed attempt: the captured
stderr, or the exception description when the process could not run. -/
def attemptMsg : AttemptOutcome → String
  | .exit _ _ stderr => stderr
  | .exn m => m

/-- The retry loop of `safe_run_command`. `outcomes n` is what the
external command does on attempt number `n`; the fuel is the loop range.
Returns the `(success, stdout, stderr)` triple and the number of
attempts made. -/
def safe_run_go (outcomes : Nat → AttemptOutcome) (retry : Bool) :
    Nat → Nat → (Bool × String × String) × Nat
  | attempt, 0 => ((false, "", "Max retries exceeded"), attempt)
  | attempt, fuel + 1 =>
    match outcomes attempt with
    | .exit code out err =>
      if code = 0 then ((true, out, ""), attempt + 1)
      else if attempt = MAX_RETRIES - 1 ∨ retry = false then ((false, "", err), attempt + 1)
      else safe_run_go outcomes retry (attempt + 1) fuel
    | .exn m =>
      if attempt = MAX_RETRIES - 1 ∨ retry = false then ((false, "", m), attempt + 1)
      else safe_run_go outcomes retry (attempt + 1) fuel

/-- `safe_run_command` from src/streamlit.py, with the external command
abstracted as the attempt-indexed oracle `outcomes`. -/
def safe_run_command (outcomes : Nat → AttemptOutcome) (retry : Bool) :
    (Bool × String × String) × Nat :=
  safe_run_go outcomes retry 0 (if retry then MAX_RETRIES else 1)

/-! ## Metadata parsing (`parse_models_output`) -/

/-- Python dict assignment `d[k] = v`: overwrite in place when the key
exists, otherwise append the new binding. -/
def dictSet (d : List (String × List String)) (k : String) (v : List String) :
    List (String × List String) :=
  if d.any (fun kv => kv.1 == k) then d.map (fun kv => if kv.1 == k then (kv.1, v) else kv)
  else d ++ [(k, v)]

/-- Python `d[k].append(m)` on the provider dictionary. -/
def dictAppend (d : List (String × List String)) (k : String) (m : String) :
    List (String × List String) :=
  d.map (fun kv => if kv.1 == k then (kv.1, kv.2 ++ [m]) else kv)

/-- Python `line.startswith(c)` for a one-character needle. -/
def startsWithChar (c : Char) : List Char → Bool
  | [] => false
  | a :: _ => a == c

/-- Python `model.split("]", 1)[1]`: everything after the first `]`. -/
def afterFirstRBracket (l : List Char) : List Char :=
  (l.dropWhile (fun c => c != Char.ofNat 93)).tail

/-- One iteration of the `parse_models_output` line loop. The state is
the current provider and the provider dictionary. -/
def parseModelsStep (st : Option String × List (String × List String))
    (rawLine : List Char) : Option String × List (String × List String) :=
  let (current_provider, providers) := st
  let line := pyStripList rawLine
  if line.isEmpty then st
  else if String.mk line = "Available models:" then st
  else if ¬ startsWithChar (Char.ofNat 9) line ∧ ¬ startsWithChar (Char.ofNat 91) line then
    (some (String.mk (pyStripList line)), dictSet providers (String.mk (pyStripList line)) [])
  else
    match current_provider with
    | some cp =>
      if cp ≠ "" ∧ (startsWithChar (Char.ofNat 9) line ∨ startsWithChar (Char.ofNat 91) line) then
        let model := pyStripList line
        let model :=
          if model.contains (Char.ofNat 91) ∧ model.contains (Char.ofNat 93) then
            pyStripList (afterFirstRBracket model)
          else model
        (current_provider, dictAppend providers cp (String.mk model))
      else st
    | none => st

/-- `parse_models_output` from src/streamlit.py: scan the lines of the
`--listmodels` output and build the provider-to-models dictionary. -/
def parse_models_output (output : String) : List (String × List String) :=
  ((output.data.splitOn (Char.ofNat 10)).foldl parseModelsStep (none, [])).2

/-! ## Metadata cache (`fetch_models_once`) -/

/-- The cache fields of the session state used by `fetch_models_once`. -/
structure CacheState where
  cached_models : Option (List (String × List String))
  last_model_fetch : ℚ
deriving DecidableEq

/-- Outcome of the `fabric --listmodels` invocation through the runner. -/
inductive RunnerOutcome where
  | ok (stdout : String)
  | err (stderr : String)
deriving DecidableEq

/-- `fetch_models_once` from src/streamlit.py, with the clock and the
Process Runner abstracted. Returns the catalog, the new cache state and
whether the runner was invoked. -/
def fetch_models_once (st : CacheState) (now : ℚ) (runner : RunnerOutcome) :
    List (String × List String) × CacheState × Bool :=
  if st.cached_models.isSome ∧ now - st.last_model_fetch < 300 then
    (st.cached_models.getD [], st, false)
  else
    match runner with
    | .err _ => ([], st, true)
    | .ok stdout =>
      let providers := parse_models_output stdout
      (providers, ⟨some providers, now⟩, true)

/-! ## Pattern Matcher (`match_patterns`) -/

structure PatternDescriptor where
  patternName : String
  description : String
  tags : List String
deriving DecidableEq

/-- Python `str.lower()` on a character list. -/
def lowerList (l : List Char) : List Char := l.map Char.toLower

/-- Does `hay` start with `needle`? -/
def startsWithList : List Char → List Char → Bool
  | [], _ => true
  | _ :: _, [] => false
  | a :: as, b :: bs => a == b && startsWithList as bs

/-- Python substring test `needle in hay`. -/
def isSub (needle : List Char) : List Char → Bool
  | [] => needle.isEmpty
  | c :: rest => startsWithList needle (c :: rest) || isSub needle rest

/-- The score the `match_patterns` loop computes for one descriptor
against the lowered query `q`. -/
def patternScore (q : List Char) (p : PatternDescriptor)
    (extracts : String → String) (use_extracts : Bool) : ℚ :=
  let pattern_name := lowerList p.patternName.data
  let description := lowerList p.description.data
  let tags := p.tags.map (fun t => lowerList t.data)
  let extract_text :=
    if use_extracts then lowerList (extracts (String.mk pattern_name)).data else []
  let s1 : ℚ :=
    if isSub q pattern_name then
      10 + (if q = pattern_name ∨
          isSub (Char.ofNat 32 :: q ++ [Char.ofNat 32])
            (Char.ofNat 32 :: pattern_name ++ [Char.ofNat 32]) then 5 else 0)
    else 0
  let s2 : ℚ := if isSub q description then 5 else 0
  let s3 : ℚ :=
    (tags.map (fun tag => if isSub q tag then (3 : ℚ) + (if q = tag then 2 else 0) else 0)).sum
  let s4 : ℚ := if ¬ extract_text.isEmpty ∧ isSub q extract_text then 2 else 0
  let s5 : ℚ :=
    ((pyWordsList q).dedup.map (fun w =>
      if 3 < w.length then
        (if isSub w pattern_name then (2 : ℚ) else 0)
        + (if isSub w description then 1 else 0)
        + (if tags.any (fun tag => isSub w tag) then 1 else 0)
        + (if ¬ extract_text.isEmpty ∧ isSub w extract_text then 1 / 2 else 0)
      else 0)).sum
  s1 + s2 + s3 + s4 + s5

/-- `match_patterns` from src/streamlit.py. `extracts` stands for
`load_pattern_extracts()` as a dictionary lookup with default `""`. -/
def match_patterns (query : String) (metadata : List PatternDescriptor)
    (extracts : String → String) (use_extracts : Bool) : List PatternDescriptor :=
  if query.data.isEmpty ∨ metadata.isEmpty then []
  else
    let q := lowerList query.data
    let scored := metadata.map (fun p => (p, patternScore q p extracts use_extracts))
    let ms := scored.filter (fun x => decide (0 < x.2))
    (ms.mergeSort (fun a b => decide (b.2 ≤ a.2))).map (fun x => x.1)

/-! ## History Store (`star_output`, `unstar_output`) -/

structure LogEntry where
  timestamp : String
  pattern_name : String
  input : String
  output : String
  is_starred : Bool
  custom_name : String
deriving DecidableEq

structure HistoryState where
  output_logs : List LogEntry
  starred_outputs : List LogEntry
deriving DecidableEq

/-- The starred copy `star_output` builds: the log entry with
`is_starred` set and the custom name defaulted when empty. -/
def starCopy (st : HistoryState) (name : String) (entry : LogEntry) : LogEntry :=
  { entry with
    is_starred := true,
    custom_name :=
      if name = "" then "Starred Output #" ++ toString (st.starred_outputs.length + 1)
      else name }

/-- `star_output` from src/streamlit.py. Returns the boolean the
function returns, the new history state, and whether `save_outputs`
ran (a persist to the backing files). -/
def star_output (st : HistoryState) (log_index : Int) (custom_name : String) :
    Bool × HistoryState × Bool :=
  if 0 ≤ log_index ∧ log_index < (st.output_logs.length : Int) then
    match st.output_logs.get? log_index.toNat with
    | some entry0 =>
      let entry := starCopy st custom_name entry0
      if ¬ st.starred_outputs.any (fun s => s.timestamp == entry.timestamp) then
        (true, { st with starred_outputs := st.starred_outputs ++ [entry] }, true)
      else
        (false, st, false)
    | none => (false, st, false)
  else (false, st, false)

/-- `unstar_output` from src/streamlit.py: `pop(index)` on the starred
collection when the index is in bounds. Returns the new state and
whether `save_outputs` ran. -/
def unstar_output (st : HistoryState) (log_index : Int) : HistoryState × Bool :=
  if 0 ≤ log_index ∧ log_index < (st.starred_outputs.length : Int) then
    ({ st with starred_outputs := st.starred_outputs.eraseIdx log_index.toNat }, true)
  else (st, false)

/-- The log entry `save_output_log` appends. -/
def mkLogEntry (pattern input output ts : String) : LogEntry :=
  ⟨ts, pattern, input, output, false, ""⟩

/-! ## Chain Executor (`execute_pattern_chain`, `execute_patterns`) -/

/-- Outcome of one engine invocation `run(["fabric", "--pattern", p], input=...)`
with `check=True`: normal exit 0 (stdout captured), a
`CalledProcessError`, a `UnicodeEncodeError`, or any other exception. -/
inductive EngineResult where
  | ok (stdout : String)
  | calledErr (stderr : String)
  | unicodeErr (msg : String)
  | otherErr (msg : String)
deriving DecidableEq

/-- A hard failure: any outcome other than a clean exit. -/
def EngineResult.isFailure : EngineResult → Bool
  | .ok _ => false
  | _ => true

structure StageResult where
  pattern : String
  input : String
  output : Option String
  success : Bool
  error : Option String
deriving DecidableEq

structure ChainMeta where
  timestamp : String
  success : Bool
  error : Option String
deriving DecidableEq

structure ChainResult where
  sequence : List String
  stages : List StageResult
  final_output : Option String
  metadata : ChainMeta
deriving DecidableEq

/-- Result of `execute_pattern_chain` together with the log entries
appended via `save_output_log` and the engine invocations made. -/
structure ChainOutcome where
  result : ChainResult
  logs : List LogEntry
  calls : List (String × String)
deriving DecidableEq

/-- The stage loop of `execute_pattern_chain`. A hard failure sets the
stage error and `break`s before the `stages.append`, so the failed
stage is dropped and no log entry is written for it. -/
def chainLoop (engine : String → String → EngineResult) (ts : String) :
    List String → String → List StageResult × List LogEntry × List (String × String)
  | [], _ => ([], [], [])
  | p :: rest, cur =>
    match engine p cur with
    | .ok out =>
      let output := pyStrip out
      if output ≠ "" then
        let r := chainLoop engine ts rest output
        (⟨p, cur, some output, true, none⟩ :: r.1,
         mkLogEntry p cur output ts :: r.2.1, (p, cur) :: r.2.2)
      else
        let r := chainLoop engine ts rest cur
        (⟨p, cur, none, false, some "Pattern generated no output"⟩ :: r.1,
         mkLogEntry p cur "Pattern generated no output" ts :: r.2.1, (p, cur) :: r.2.2)
    | _ => ([], [], [(p, cur)])

/-- `execute_pattern_chain` from src/streamlit.py, with the engine
abstracted as a function from pattern name and piped input to an
`EngineResult`, and the timestamp a parameter. -/
def execute_pattern_chain (engine : String → String → EngineResult) (ts : String)
    (patterns_sequence : List String) (initial_input : String) : ChainOutcome :=
  let r := chainLoop engine ts patterns_sequence initial_input
  let successful := r.1.filter (fun s => s.success)
  ⟨⟨patterns_sequence, r.1, successful.getLast?.bind (fun s => s.output),
    ⟨ts, !successful.isEmpty, none⟩⟩, r.2.1, r.2.2⟩

/-- The session-state fields `execute_patterns` reads. -/
structure ExecState where
  vendor : Option String
  model : Option String
  input_content : String
deriving DecidableEq

/-- Result of `execute_patterns` together with instrumentation: the
returned markdown outputs, the engine invocations made (pattern and
piped input), and the log entries appended. -/
structure ExecOutcome where
  outputs : List String
  calls : List (String × String)
  logs : List LogEntry
deriving DecidableEq

/-- Python truthiness of an optional string config entry. -/
def pyTruthy : Option String → Bool
  | none => false
  | some s => s != ""

/-- The pattern loop of `execute_patterns`. In non-chain mode every
invocation is given `st.session_state.input_content`; in chain mode the
running input, updated only by non-empty successful stages. -/
def execLoop (engine : String → String → EngineResult) (ts input_content : String)
    (chain_mode : Bool) :
    List String → String → List String × List (String × String) × List LogEntry
  | [], _ => ([], [], [])
  | p :: rest, cur =>
    let message := if chain_mode then cur else input_content
    match engine p message with
    | .ok out =>
      let pattern_output := pyStrip out
      if pattern_output ≠ "" then
        let next := if chain_mode then pattern_output else cur
        let r := execLoop engine ts input_content chain_mode rest next
        (("### " ++ p ++ "\n\n" ++ pattern_output) :: r.1, (p, message) :: r.2.1,
         mkLogEntry p message pattern_output ts :: r.2.2)
      else
        let r := execLoop engine ts input_content chain_mode rest cur
        (("### " ++ p ++ "\n\nNo output generated.") :: r.1, (p, message) :: r.2.1, r.2.2)
    | .unicodeErr m =>
      let msg := "### " ++ p ++ "\n\n❌ Invalid characters: " ++ m
      if chain_mode then ([msg], [(p, message)], [])
      else
        let r := execLoop engine ts input_content chain_mode rest cur
        (msg :: r.1, (p, message) :: r.2.1, r.2.2)
    | .calledErr e =>
      let msg := "### " ++ p ++ "\n\n❌ Error executing: " ++ pyStrip e
      if chain_mode then ([msg], [(p, message)], [])
      else
        let r := execLoop engine ts input_content chain_mode rest cur
        (msg :: r.1, (p, message) :: r.2.1, r.2.2)
    | .otherErr m =>
      let msg := "### " ++ p ++ "\n\n❌ Failed to execute: " ++ m
      if chain_mode then ([msg], [(p, message)], [])
      else
        let r := execLoop engine ts input_content chain_mode rest cur
        (msg :: r.1, (p, message) :: r.2.1, r.2.2)

/-- `current_input = initial_input or st.session_state.input_content`:
Python `or` falls back on a falsy (empty or absent) left operand. -/
def resolveInput (st : ExecState) (initial_input : Option String) : String :=
  match initial_input with
  | some s => if s = "" then st.input_content else s
  | none => st.input_content

/-- `execute_patterns` from src/streamlit.py, with the engine and the
timestamp abstracted. -/
def execute_patterns (engine : String → String → EngineResult) (ts : String)
    (st : ExecState) (patterns_to_run : List String) (chain_mode : Bool)
    (initial_input : Option String) : ExecOutcome :=
  let current_input := resolveInput st initial_input
  if ¬ (pyTruthy st.vendor ∧ pyTruthy st.model) then ⟨[], [], []⟩
  else if ¬ (validate_input_content current_input).1 then ⟨[], [], []⟩
  else
    let current_input := sanitize_input_content current_input
    let info := "**Using Model:** " ++ st.vendor.getD "" ++ " - " ++ st.model.getD ""
    let r := execLoop engine ts st.input_content chain_mode patterns_to_run current_input
    ⟨info :: r.1, r.2.1, r.2.2⟩

/-! ## Concrete inputs used by counterexamples and witnesses -/

/-- Engine where pattern A succeeds with non-empty output, pattern B
exits non-zero, pattern C would succeed. -/
def engineC1 : String → String → EngineResult := fun p _ =>
  if p = "A" then .ok "outA" else if p = "B" then .calledErr "boom" else .ok "outC"

/-- Engine that always succeeds with output `"out"`. -/
def engineOk : String → String → EngineResult := fun _ _ => .ok "out"

/-- Engine whose first pattern produces only whitespace output. -/
def engineEmptyA : String → String → EngineResult := fun p _ =>
  if p = "A" then .ok "  \n" else .ok "outB"

/-- Session state with a provider and model selected and an input whose
sanitized form differs from the original (a double space). -/
def stC4 : ExecState := ⟨some "v", some "m", "a  b"⟩

/-- A log entry. -/
def logT : LogEntry := ⟨"2024-01-01 00:00:00", "pat", "in", "out", false, ""⟩

/-- The starred copy of `logT`. -/
def starredT : LogEntry := ⟨"2024-01-01 00:00:00", "pat", "in", "out", true, "Starred Output #1"⟩

/-- History where the only log entry is already starred. -/
def histC3 : HistoryState := ⟨[logT], [starredT]⟩

/-- History with one log entry and nothing starred. -/
def histFresh : HistoryState := ⟨[logT], []⟩

/-- The descriptor of the matcher scoring test. -/
def gitDesc : PatternDescriptor := ⟨"summarize_git_diff", "summarizes a git diff", ["git", "vcs"]⟩

/-- Command outcomes: two non-zero exits, then a clean exit. -/
def oFailTwice : Nat → AttemptOutcome := fun n =>
  if n = 0 then .exit 1 "" "e0" else if n = 1 then .exn "e1" else .exit 0 "good" ""

/-- Command outcomes: every attempt fails. -/
def oAllFail : Nat → AttemptOutcome := fun n =>
  if n = 0 then .exit 1 "" "e0" else if n = 1 then .exit 2 "" "e1" else .exn "e2"

/-- The six-line `--listmodels` output of the catalog parsing test. -/
def listingC2 : String :=
  "Available models:\nOpenAI\n[1] gpt-4\n[2] gpt-3.5\nAnthropic\n\tclaude-3"

/-! ## Helper lemmas -/

theorem splitOnP_pieces (p : Char → Bool) :
    ∀ (l : List Char), ∀ w ∈ l.splitOnP p, ∀ c ∈ w, p c = false ∧ c ∈ l := by
  intro l
  induction l with
  | nil =>
    intro w hw c hc
    rw [List.splitOnP_nil] at hw
    simp at hw
    subst hw
    simp at hc
  | cons a t ih =>
    intro w hw c hc
    rw [List.splitOnP_cons] at hw
    by_cases hpa : p a
    · rw [if_pos hpa] at hw
      rcases List.mem_cons.mp hw with h | h
      · subst h
        simp at hc
      · obtain ⟨h1, h2⟩ := ih w h c hc
        exact ⟨h1, List.mem_cons_of_mem a h2⟩
    · rw [if_neg hpa] at hw
      obtain ⟨h0, t0, hsp⟩ : ∃ h0 t0, t.splitOnP p = h0 :: t0 := by
        cases hsp : t.splitOnP p with
        | nil => exact absurd hsp (List.splitOnP_ne_nil _ t)
        | cons h0 t0 => exact ⟨h0, t0, rfl⟩
      rw [hsp] at hw
      simp only [List.modifyHead] at hw
      rcases List.mem_cons.mp hw with h | h
      · subst h
        rcases List.mem_cons.mp hc with h2 | h2
        · refine ⟨?_, ?_⟩
          · rw [h2]
            simpa using hpa
          · rw [h2]
            exact List.mem_cons_self _ t
        · obtain ⟨hp1, hp2⟩ := ih h0 (by rw [hsp]; exact List.mem_cons_self h0 t0) c h2
          exact ⟨hp1, List.mem_cons_of_mem a hp2⟩
      · obtain ⟨hp1, hp2⟩ := ih w (by rw [hsp]; exact List.mem_cons_of_mem h0 h) c hc
        exact ⟨hp1, List.mem_cons_of_mem a hp2⟩

theorem pyWords_pieces (l : List Char) :
    ∀ w ∈ pyWordsList l, w ≠ [] ∧ ∀ c ∈ w, isPySpace c = false ∧ c ∈ l := by
  intro w hw
  unfold pyWordsList at hw
  obtain ⟨hmem, hne⟩ := List.mem_filter.mp hw
  refine ⟨?_, fun c hc => splitOnP_pieces isPySpace l w hmem c hc⟩
  intro hnil
  subst hnil
  simp at hne

theorem pyWords_joinSp :
    ∀ ws : List (List Char), (∀ w ∈ ws, w ≠ [] ∧ ∀ c ∈ w, isPySpace c = false) →
      pyWordsList (joinSp ws) = ws := by
  intro ws
  induction ws with
  | nil => intro _; decide
  | cons w ws ih =>
    intro h
    obtain ⟨hwne, hwchars⟩ := h w (List.mem_cons_self w ws)
    have hnp : ∀ x ∈ w, ¬ (isPySpace x = true) := by
      intro x hx
      simp [hwchars x hx]
    have hb : (!w.isEmpty) = true := by
      cases w with
      | nil => exact absurd rfl hwne
      | cons c cs => rfl
    cases ws with
    | nil =>
      unfold pyWordsList
      rw [show joinSp [w] = w from rfl, List.splitOnP_eq_single _ _ hnp]
      simp [hb]
    | cons v ws2 =>
      have ih2 := ih (fun u hu => h u (List.mem_cons_of_mem w hu))
      unfold pyWordsList at ih2 ⊢
      rw [show joinSp (w :: v :: ws2) = w ++ Char.ofNat 32 :: joinSp (v :: ws2) from rfl,
        List.splitOnP_first _ _ hnp (Char.ofNat 32) (by decide) _]
      rw [List.filter_cons, if_pos hb, ih2]

theorem joinSp_chars :
    ∀ ws : List (List Char), ∀ c ∈ joinSp ws, c = Char.ofNat 32 ∨ ∃ w ∈ ws, c ∈ w := by
  intro ws
  induction ws with
  | nil =>
    intro c hc
    simp [joinSp] at hc
  | cons w ws ih =>
    cases ws with
    | nil =>
      intro c hc
      rw [show joinSp [w] = w from rfl] at hc
      exact Or.inr ⟨w, List.mem_cons_self w [], hc⟩
    | cons v ws2 =>
      intro c hc
      rw [show joinSp (w :: v :: ws2) = w ++ Char.ofNat 32 :: joinSp (v :: ws2) from rfl] at hc
      rcases List.mem_append.mp hc with h | h
      · exact Or.inr ⟨w, List.mem_cons_self w (v :: ws2), h⟩
      · rcases List.mem_cons.mp h with h | h
        · exact Or.inl h
        · rcases ih c h with h2 | ⟨u, hu, hcu⟩
          · exact Or.inl h2
          · exact Or.inr ⟨u, List.mem_cons_of_mem w hu, hcu⟩

theorem sanitizeStage_chars (l : List Char) :
    ∀ c ∈ (l.filter (fun c => c ≠ Char.ofNat 0)).map sanitizeChar,
      c = Char.ofNat 10 ∨ c = Char.ofNat 9 ∨ c = Char.ofNat 13 ∨ 32 ≤ c.toNat := by
  intro c hc
  obtain ⟨c0, _, hmap⟩ := List.mem_map.mp hc
  subst hmap
  unfold sanitizeChar
  by_cases h : c0 = Char.ofNat 10 ∨ c0 = Char.ofNat 9 ∨ c0 = Char.ofNat 13 ∨ 32 ≤ c0.toNat
  · rw [if_pos h]
    exact h
  · rw [if_neg h]
    exact Or.inr (Or.inr (Or.inr (by decide)))

theorem sanitizeList_chars (l : List Char) : ∀ c ∈ sanitizeList l, 32 ≤ c.toNat := by
  intro c hc
  simp only [sanitizeList] at hc
  rcases joinSp_chars _ c hc with h | ⟨w, hw, hcw⟩
  · subst h
    decide
  · obtain ⟨_, hwchars⟩ := pyWords_pieces _ w hw
    obtain ⟨hsp, hmem⟩ := hwchars c hcw
    rcases sanitizeStage_chars l c hmem with h | h | h | h
    · rw [h] at hsp
      exact absurd hsp (by decide)
    · rw [h] at hsp
      exact absurd hsp (by decide)
    · rw [h] at hsp
      exact absurd hsp (by decide)
    · exact h

theorem map_id_of (f : Char → Char) :
    ∀ l : List Char, (∀ c ∈ l, f c = c) → l.map f = l := by
  intro l
  induction l with
  | nil => intro _; rfl
  | cons a t ih =>
    intro h
    rw [List.map_cons, h a (List.mem_cons_self a t),
      ih (fun c hc => h c (List.mem_cons_of_mem a hc))]

theorem filter_id_of (p : Char → Bool) :
    ∀ l : List Char, (∀ c ∈ l, p c = true) → l.filter p = l := by
  intro l
  induction l with
  | nil => intro _; rfl
  | cons a t ih =>
    intro h
    rw [List.filter_cons, if_pos (h a (List.mem_cons_self a t)),
      ih (fun c hc => h c (List.mem_cons_of_mem a hc))]

theorem sanitizeList_idem (l : List Char) : sanitizeList (sanitizeList l) = sanitizeList l := by
  have hchars := sanitizeList_chars l
  have h1 : (sanitizeList l).filter (fun c => c ≠ Char.ofNat 0) = sanitizeList l := by
    apply filter_id_of
    intro c hc
    have h32 := hchars c hc
    rw [decide_eq_true_eq]
    intro heq
    rw [heq] at h32
    exact absurd h32 (by decide)
  have h2 : (sanitizeList l).map sanitizeChar = sanitizeList l := by
    apply map_id_of
    intro c hc
    unfold sanitizeChar
    exact if_pos (Or.inr (Or.inr (Or.inr (hchars c hc))))
  have hws : ∀ w ∈ pyWordsList ((l.filter (fun c => c ≠ Char.ofNat 0)).map sanitizeChar),
      w ≠ [] ∧ ∀ c ∈ w, isPySpace c = false := by
    intro w hw
    obtain ⟨hne, hch⟩ := pyWords_pieces _ w hw
    exact ⟨hne, fun c hc => (hch c hc).1⟩
  calc sanitizeList (sanitizeList l)
      = joinSp (pyWordsList (((sanitizeList l).filter
          (fun c => c ≠ Char.ofNat 0)).map sanitizeChar)) := rfl
    _ = joinSp (pyWordsList (sanitizeList l)) := by rw [h1, h2]
    _ = joinSp (pyWordsList (joinSp (pyWordsList ((l.filter
          (fun c => c ≠ Char.ofNat 0)).map sanitizeChar)))) := rfl
    _ = joinSp (pyWordsList ((l.filter (fun c => c ≠ Char.ofNat 0)).map sanitizeChar)) := by
          rw [pyWords_joinSp _ hws]
    _ = sanitizeList l := rfl

theorem safe_run_go_attempts_le (o : Nat → AttemptOutcome) (r : Bool) :
    ∀ fuel attempt, (safe_run_go o r attempt fuel).2 ≤ attempt + fuel := by
  intro fuel
  induction fuel with
  | zero => intro attempt; simp [safe_run_go]
  | succ n ih =>
    intro attempt
    simp only [safe_run_go]
    cases o attempt with
    | exit code out err =>
      by_cases hc : code = 0
      · simp only [if_pos hc]; omega
      · by_cases h2 : attempt = MAX_RETRIES - 1 ∨ r = false
        · simp only [if_neg hc, if_pos h2]; omega
        · simp only [if_neg hc, if_neg h2]
          have := ih (attempt + 1)
          omega
    | exn m =>
      by_cases h2 : attempt = MAX_RETRIES - 1 ∨ r = false
      · simp only [if_pos h2]; omega
      · simp only [if_neg h2]
        have := ih (attempt + 1)
        omega

theorem safe_run_go_step_fail (o : Nat → AttemptOutcome) (attempt fuel : Nat)
    (hf : attemptFailed (o attempt) = true) (hlt : attempt < MAX_RETRIES - 1) :
    safe_run_go o true attempt (fuel + 1) = safe_run_go o true (attempt + 1) fuel := by
  have hne : attempt ≠ MAX_RETRIES - 1 := Nat.ne_of_lt hlt
  cases ho : o attempt with
  | exit c so se =>
    have hc : ¬ c = 0 := by
      rw [ho] at hf
      simpa [attemptFailed] using hf
    simp [safe_run_go, ho, hc, hne]
  | exn m => simp [safe_run_go, ho, hne]

theorem safe_run_go_last_fail (o : Nat → AttemptOutcome) (fuel : Nat)
    (hf : attemptFailed (o 2) = true) :
    safe_run_go o true 2 (fuel + 1) = ((false, "", attemptMsg (o 2)), 3) := by
  cases ho : o 2 with
  | exit c so se =>
    have hc : ¬ c = 0 := by
      rw [ho] at hf
      simpa [attemptFailed] using hf
    simp [safe_run_go, ho, hc, attemptMsg, MAX_RETRIES]
  | exn m => simp [safe_run_go, ho, attemptMsg, MAX_RETRIES]

/-! ## Claim theorems -/

/-- C2: the claim says the tab-indented line `claude-3` is stored as a
model of provider Anthropic. The code strips each line before testing
for a leading tab, so the tab test is dead and the line opens a new
provider section: the parsed catalog maps Anthropic to no models and
adds a bogus provider claude-3. -/
theorem c2_parse_models_output_on_listing :
    parse_models_output listingC2
      = [("OpenAI", ["gpt-4", "gpt-3.5"]), ("Anthropic", []), ("claude-3", [])]
    ∧ parse_models_output listingC2
      ≠ [("OpenAI", ["gpt-4", "gpt-3.5"]), ("Anthropic", ["claude-3"])] := by
  decide

/-- C7: `safe_run_command` makes at most 3 attempts with retry enabled
and exactly one without; a command failing twice then exiting 0 yields
success with that stdout after 3 attempts; a command failing on every
attempt yields failure carrying the message of the last attempt after
exactly 3 attempts. -/
theorem c7_safe_run_command_retries :
    (∀ o : Nat → AttemptOutcome, (safe_run_command o true).2 ≤ 3)
    ∧ (∀ o : Nat → AttemptOutcome, (safe_run_command o false).2 = 1)
    ∧ (∀ (o : Nat → AttemptOutcome) (out se : String),
        attemptFailed (o 0) = true → attemptFailed (o 1) = true →
        o 2 = .exit 0 out se → safe_run_command o true = ((true, out, ""), 3))
    ∧ (∀ o : Nat → AttemptOutcome, (∀ i, i < 3 → attemptFailed (o i) = true) →
        safe_run_command o true = ((false, "", attemptMsg (o 2)), 3)) := by
  refine ⟨?_, ?_, ?_, ?_⟩
  · intro o
    have h := safe_run_go_attempts_le o true MAX_RETRIES 0
    simpa [safe_run_command, MAX_RETRIES] using h
  · intro o
    cases ho : o 0 with
    | exit c so se =>
      by_cases hc : c = 0 <;> simp [safe_run_command, safe_run_go, ho, hc]
    | exn m => simp [safe_run_command, safe_run_go, ho]
  · intro o out se h0 h1 h2
    have e0 := safe_run_go_step_fail o 0 2 h0 (by decide)
    have e1 := safe_run_go_step_fail o 1 1 h1 (by decide)
    calc safe_run_command o true = safe_run_go o true 0 3 := by
          simp [safe_run_command, MAX_RETRIES]
      _ = safe_run_go o true 1 2 := e0
      _ = safe_run_go o true 2 1 := e1
      _ = ((true, out, ""), 3) := by simp [safe_run_go, h2]
  · intro o hall
    have e0 := safe_run_go_step_fail o 0 2 (hall 0 (by omega)) (by decide)
    have e1 := safe_run_go_step_fail o 1 1 (hall 1 (by omega)) (by decide)
    have e2 := safe_run_go_last_fail o 0 (hall 2 (by omega))
    calc safe_run_command o true = safe_run_go o true 0 3 := by
          simp [safe_run_command, MAX_RETRIES]
      _ = safe_run_go o true 1 2 := e0
      _ = safe_run_go o true 2 1 := e1
      _ = ((false, "", attemptMsg (o 2)), 3) := e2

/-- C7 witness: a command failing twice then succeeding returns success
with the third stdout in 3 attempts; one failing always returns the last
message after 3 attempts; retry disabled makes exactly one attempt. -/
theorem c7_witness :
    safe_run_command oFailTwice true = ((true, "good", ""), 3)
    ∧ safe_run_command oAllFail true = ((false, "", attemptMsg (oAllFail 2)), 3)
    ∧ (safe_run_command oAllFail false).2 = 1 :=
  ⟨c7_safe_run_command_retries.2.2.1 oFailTwice "good" "" (by decide) (by decide) (by decide),
   c7_safe_run_command_retries.2.2.2 oAllFail (by decide),
   c7_safe_run_command_retries.2.1 oAllFail⟩

/-- C10: for any index outside the bounds of the respective collection
(negative included), `star_output` returns false and `unstar_output`
does nothing; the state is unchanged and no persist happens. -/
theorem c10_out_of_bounds_no_mutation (st : HistoryState) (i j : Int) (name : String)
    (hi : i < 0 ∨ (st.output_logs.length : Int) ≤ i)
    (hj : j < 0 ∨ (st.starred_outputs.length : Int) ≤ j) :
    star_output st i name = (false, st, false) ∧ unstar_output st j = (st, false) := by
  constructor
  · have h : ¬ (0 ≤ i ∧ i < (st.output_logs.length : Int)) := by omega
    simp [star_output, h]
  · have h : ¬ (0 ≤ j ∧ j < (st.starred_outputs.length : Int)) := by omega
    simp [unstar_output, h]

/-- C10 witness: a negative index and a too-large index on a concrete
history leave it untouched. -/
theorem c10_witness :
    star_output histC3 (-1) "n" = (false, histC3, false)
    ∧ unstar_output histC3 5 = (histC3, false) :=
  c10_out_of_bounds_no_mutation histC3 (-1) 5 "n" (by decide) (by decide)

/-- C6: a successful fetch at time t0 fills the cache; a second call
less than 300 seconds later returns the stored catalog without invoking
the runner; any call more than 300 seconds after the recorded fetch
time invokes the runner again. -/
theorem c6_cache_ttl :
    (∀ (st0 : CacheState) (t0 t1 : ℚ) (stdout : String) (runner2 : RunnerOutcome),
      st0.cached_models = none → t1 - t0 < 300 →
      (fetch_models_once st0 t0 (.ok stdout)).2.2 = true
      ∧ (fetch_models_once (fetch_models_once st0 t0 (.ok stdout)).2.1 t1 runner2).2.2 = false
      ∧ (fetch_models_once (fetch_models_once st0 t0 (.ok stdout)).2.1 t1 runner2).1
          = parse_models_output stdout)
    ∧ (∀ (st : CacheState) (t2 : ℚ) (runner : RunnerOutcome),
      300 < t2 - st.last_model_fetch → (fetch_models_once st t2 runner).2.2 = true) := by
  constructor
  · intro st0 t0 t1 stdout runner2 hnone hlt
    have h1 : fetch_models_once st0 t0 (.ok stdout)
        = (parse_models_output stdout, ⟨some (parse_models_output stdout), t0⟩, true) := by
      simp [fetch_models_once, hnone]
    refine ⟨by rw [h1], ?_, ?_⟩ <;> rw [h1] <;> simp [fetch_models_once, hlt]
  · intro st t2 runner h
    have hn : ¬ (t2 - st.last_model_fetch < 300) := by linarith
    cases runner <;> simp [fetch_models_once, hn]

/-- C6 witness: concrete times 0 and 100 hit the cache once filled, and
time 400 against a fetch recorded at 50 refetches. -/
theorem c6_witness :
    (fetch_models_once ⟨none, 0⟩ 0 (.ok "X")).2.2 = true
    ∧ (fetch_models_once (fetch_models_once ⟨none, 0⟩ 0 (.ok "X")).2.1 100 (.err "e")).2.2 = false
    ∧ (fetch_models_once (fetch_models_once ⟨none, 0⟩ 0 (.ok "X")).2.1 100 (.err "e")).1
        = parse_models_output "X"
    ∧ (fetch_models_once ⟨some [], 50⟩ 400 (.err "e")).2.2 = true := by
  have h := c6_cache_ttl
  have h1 := h.1 ⟨none, 0⟩ 0 100 "X" (.err "e") rfl (by norm_num)
  exact ⟨h1.1, h1.2.1, h1.2.2, h.2 ⟨some [], 50⟩ 400 (.err "e") (by norm_num)⟩

theorem chainLoop_cons_ok_nonempty (engine : String → String → EngineResult)
    (ts p cur out : String) (rest : List String)
    (h : engine p cur = .ok out) (hne : pyStrip out ≠ "") :
    chainLoop engine ts (p :: rest) cur
      = (⟨p, cur, some (pyStrip out), true, none⟩ :: (chainLoop engine ts rest (pyStrip out)).1,
         mkLogEntry p cur (pyStrip out) ts :: (chainLoop engine ts rest (pyStrip out)).2.1,
         (p, cur) :: (chainLoop engine ts rest (pyStrip out)).2.2) := by
  simp [chainLoop, h, hne]

theorem chainLoop_calls_head (engine : String → String → EngineResult) (ts q cur : String)
    (rest : List String) :
    (chainLoop engine ts (q :: rest) cur).2.2.head? = some (q, cur) := by
  cases h : engine q cur with
  | ok out => by_cases he : pyStrip out ≠ "" <;> simp [chainLoop, h, he]
  | calledErr e => simp [chainLoop, h]
  | unicodeErr m => simp [chainLoop, h]
  | otherErr m => simp [chainLoop, h]

/-- C9: when a stage exits 0 but its stripped stdout is empty, the
stage is appended failed with error "Pattern generated no output", the
chain is not aborted, and the next pattern is invoked with exactly the
same input the empty stage received. -/
theorem c9_empty_output_continues (engine : String → String → EngineResult)
    (ts input out p q : String) (rest : List String)
    (h1 : engine p input = .ok out) (h2 : pyStrip out = "") :
    (execute_pattern_chain engine ts (p :: q :: rest) input).result.stages.head?
      = some ⟨p, input, none, false, some "Pattern generated no output"⟩
    ∧ (execute_pattern_chain engine ts (p :: q :: rest) input).calls.head? = some (p, input)
    ∧ ((execute_pattern_chain engine ts (p :: q :: rest) input).calls.drop 1).head?
        = some (q, input) := by
  have hloop : chainLoop engine ts (p :: q :: rest) input
      = (⟨p, input, none, false, some "Pattern generated no output"⟩
            :: (chainLoop engine ts (q :: rest) input).1,
         mkLogEntry p input "Pattern generated no output" ts
            :: (chainLoop engine ts (q :: rest) input).2.1,
         (p, input) :: (chainLoop engine ts (q :: rest) input).2.2) := by
    simp [chainLoop, h1, h2]
  refine ⟨?_, ?_, ?_⟩ <;>
    simp [execute_pattern_chain, hloop, chainLoop_calls_head]

/-- C9 witness: a concrete engine whose first pattern emits only
whitespace; the second pattern is still invoked, with the original
input. -/
theorem c9_witness :
    (execute_pattern_chain engineEmptyA "ts" ["A", "B"] "in").result.stages.head?
      = some ⟨"A", "in", none, false, some "Pattern generated no output"⟩
    ∧ (execute_pattern_chain engineEmptyA "ts" ["A", "B"] "in").calls.head? = some ("A", "in")
    ∧ ((execute_pattern_chain engineEmptyA "ts" ["A", "B"] "in").calls.drop 1).head?
        = some ("B", "in") :=
  c9_empty_output_continues engineEmptyA "ts" "in" "  \n" "A" "B" [] (by decide) (by decide)

/-- C1 counterexample: with stage A succeeding and stage B failing
hard, the chain result contains only the successful stage A — the
failed stage B is dropped before being appended, so `stages` does not
have the claimed two-element shape `[success(A), failed(B)]`. -/
theorem c1_counterexample :
    (execute_pattern_chain engineC1 "ts" ["A", "B", "C"] "in").result.stages
      = [⟨"A", "in", some "outA", true, none⟩]
    ∧ (execute_pattern_chain engineC1 "ts" ["A", "B", "C"] "in").result.stages.length ≠ 2 := by
  decide

/-- C1 amended: for patterns [A, B, C] where A succeeds with non-empty
output and B fails hard, the chain stops with `stages = [success(A)]`
(the failed stage is not appended and C is never attempted — only A and
B are invoked), `finalOutput` is the output of A, and
`metadata.success = true`. -/
theorem c1_chain_hard_failure (engine : String → String → EngineResult)
    (ts input A B C out : String)
    (hA : engine A input = .ok out) (hne : pyStrip out ≠ "")
    (hB : (engine B (pyStrip out)).isFailure = true) :
    (execute_pattern_chain engine ts [A, B, C] input).result.stages
      = [⟨A, input, some (pyStrip out), true, none⟩]
    ∧ (execute_pattern_chain engine ts [A, B, C] input).result.final_output
        = some (pyStrip out)
    ∧ (execute_pattern_chain engine ts [A, B, C] input).result.metadata.success = true
    ∧ (execute_pattern_chain engine ts [A, B, C] input).calls
        = [(A, input), (B, pyStrip out)] := by
  have hloopB : chainLoop engine ts [B, C] (pyStrip out) = ([], [], [(B, pyStrip out)]) := by
    cases hB2 : engine B (pyStrip out) with
    | ok o =>
      rw [hB2] at hB
      simp [EngineResult.isFailure] at hB
    | calledErr e => simp [chainLoop, hB2]
    | unicodeErr m => simp [chainLoop, hB2]
    | otherErr m => simp [chainLoop, hB2]
  have hloop : chainLoop engine ts [A, B, C] input
      = ([⟨A, input, some (pyStrip out), true, none⟩],
         [mkLogEntry A input (pyStrip out) ts], [(A, input), (B, pyStrip out)]) := by
    rw [chainLoop_cons_ok_nonempty engine ts A input out [B, C] hA hne, hloopB]
  refine ⟨?_, ?_, ?_, ?_⟩ <;> simp [execute_pattern_chain, hloop]

/-- C1 witness: the concrete engine where A yields "outA", B exits
non-zero and C would succeed. -/
theorem c1_witness :
    (execute_pattern_chain engineC1 "ts" ["A", "B", "C"] "in").result.final_output
      = some (pyStrip "outA")
    ∧ (execute_pattern_chain engineC1 "ts" ["A", "B", "C"] "in").result.metadata.success = true
    ∧ (execute_pattern_chain engineC1 "ts" ["A", "B", "C"] "in").calls
        = [("A", "in"), ("B", pyStrip "outA")] :=
  have h := c1_chain_hard_failure engineC1 "ts" "in" "A" "B" "C" "outA"
    (by decide) (by decide) (by decide)
  ⟨h.2.1, h.2.2.1, h.2.2.2⟩

/-- C3 counterexample: index 0 is in bounds for the log, but an entry
with the same timestamp is already starred, and `star_output` returns
false rather than the claimed true. -/
theorem c3_counterexample :
    (0 ≤ (0 : Int) ∧ (0 : Int) < (histC3.output_logs.length : Int))
    ∧ (star_output histC3 0 "").1 = false := by
  decide

/-- C3 amended: for an in-bounds index, if no starred entry shares the
timestamp, star appends the starred copy and returns true; if the
timestamp is already starred, nothing is appended and star returns
false; starring the same entry twice leaves exactly one starred entry
with that timestamp. -/
theorem star_output_fresh (st : HistoryState) (i : Int) (name : String) (entry : LogEntry)
    (h0 : 0 ≤ i) (h1 : i < (st.output_logs.length : Int))
    (hget : st.output_logs.get? i.toNat = some entry)
    (hany : st.starred_outputs.any (fun s => s.timestamp == entry.timestamp) = false) :
    star_output st i name
      = (true, { st with starred_outputs := st.starred_outputs ++ [starCopy st name entry] },
         true) := by
  have hcond : 0 ≤ i ∧ i < (st.output_logs.length : Int) := ⟨h0, h1⟩
  have hts : (starCopy st name entry).timestamp = entry.timestamp := rfl
  simp only [star_output]
  rw [if_pos hcond, hget]
  simp [hts, hany]

theorem star_output_dup (st : HistoryState) (i : Int) (name : String) (entry : LogEntry)
    (h0 : 0 ≤ i) (h1 : i < (st.output_logs.length : Int))
    (hget : st.output_logs.get? i.toNat = some entry)
    (hany : st.starred_outputs.any (fun s => s.timestamp == entry.timestamp) = true) :
    star_output st i name = (false, st, false) := by
  have hcond : 0 ≤ i ∧ i < (st.output_logs.length : Int) := ⟨h0, h1⟩
  have hts : (starCopy st name entry).timestamp = entry.timestamp := rfl
  simp only [star_output]
  rw [if_pos hcond, hget]
  simp [hts, hany]

/-- C3 amended: for an in-bounds index, if no starred entry shares the
timestamp, star appends the starred copy and returns true; if the
timestamp is already starred, nothing is appended and star returns
false; starring the same entry twice leaves exactly one starred entry
with that timestamp. -/
theorem c3_star_dedup (st : HistoryState) (i : Int) (name : String) (entry : LogEntry)
    (h0 : 0 ≤ i) (h1 : i < (st.output_logs.length : Int))
    (hget : st.output_logs.get? i.toNat = some entry) :
    (st.starred_outputs.any (fun s => s.timestamp == entry.timestamp) = false →
      star_output st i name
        = (true, { st with starred_outputs := st.starred_outputs ++ [starCopy st name entry] },
           true))
    ∧ (st.starred_outputs.any (fun s => s.timestamp == entry.timestamp) = true →
      star_output st i name = (false, st, false))
    ∧ (st.starred_outputs.countP (fun s => s.timestamp == entry.timestamp) = 0 →
      (star_output (star_output st i name).2.1 i name).2.1.starred_outputs.countP
        (fun s => s.timestamp == entry.timestamp) = 1) := by
  have hts : (starCopy st name entry).timestamp = entry.timestamp := rfl
  refine ⟨star_output_fresh st i name entry h0 h1 hget,
    star_output_dup st i name entry h0 h1 hget, ?_⟩
  intro hcnt
  have hany : st.starred_outputs.any (fun s => s.timestamp == entry.timestamp) = false := by
    rw [List.any_eq_false]
    intro s hs
    have := List.countP_eq_zero.mp hcnt s hs
    simpa using this
  rw [star_output_fresh st i name entry h0 h1 hget hany]
  have hany2 : ({ st with starred_outputs := st.starred_outputs ++ [starCopy st name entry] }
        : HistoryState).starred_outputs.any (fun s => s.timestamp == entry.timestamp) = true := by
    rw [List.any_eq_true]
    exact ⟨starCopy st name entry, by simp, by simp [hts]⟩
  rw [star_output_dup { st with starred_outputs := st.starred_outputs ++ [starCopy st name entry] }
    i name entry h0 h1 hget hany2]
  simp [List.countP_append, hcnt, List.countP_cons, hts]

/-- C3 witness: starring the single fresh log entry succeeds and
appends its starred copy. -/
theorem c3_witness :
    star_output histFresh 0 "n"
      = (true,
         { histFresh with
             starred_outputs := histFresh.starred_outputs ++ [starCopy histFresh "n" logT] },
         true) :=
  (c3_star_dedup histFresh 0 "n" logT (by decide) (by decide) (by decide)).1 (by decide)

theorem execLoop_nonchain_calls (engine : String → String → EngineResult)
    (ts input_content : String) :
    ∀ (ps : List String) (cur : String),
      ∀ pr ∈ (execLoop engine ts input_content false ps cur).2.1, pr.2 = input_content := by
  intro ps
  induction ps with
  | nil =>
    intro cur pr h
    simp [execLoop] at h
  | cons p rest ih =>
    intro cur pr h
    cases he : engine p input_content with
    | ok out =>
      by_cases hne : pyStrip out ≠ ""
      · rw [show (execLoop engine ts input_content false (p :: rest) cur).2.1
            = (p, input_content)
              :: (execLoop engine ts input_content false rest cur).2.1 from by
            simp [execLoop, he, hne]] at h
        rcases List.mem_cons.mp h with h | h
        · rw [h]
        · exact ih cur pr h
      · rw [show (execLoop engine ts input_content false (p :: rest) cur).2.1
            = (p, input_content)
              :: (execLoop engine ts input_content false rest cur).2.1 from by
            simp [execLoop, he, hne]] at h
        rcases List.mem_cons.mp h with h | h
        · rw [h]
        · exact ih cur pr h
    | unicodeErr m =>
      rw [show (execLoop engine ts input_content false (p :: rest) cur).2.1
          = (p, input_content)
            :: (execLoop engine ts input_content false rest cur).2.1 from by
          simp [execLoop, he]] at h
      rcases List.mem_cons.mp h with h | h
      · rw [h]
      · exact ih cur pr h
    | calledErr e =>
      rw [show (execLoop engine ts input_content false (p :: rest) cur).2.1
          = (p, input_content)
            :: (execLoop engine ts input_content false rest cur).2.1 from by
          simp [execLoop, he]] at h
      rcases List.mem_cons.mp h with h | h
      · rw [h]
      · exact ih cur pr h
    | otherErr m =>
      rw [show (execLoop engine ts input_content false (p :: rest) cur).2.1
          = (p, input_content)
            :: (execLoop engine ts input_content false rest cur).2.1 from by
          simp [execLoop, he]] at h
      rcases List.mem_cons.mp h with h | h
      · rw [h]
      · exact ih cur pr h

theorem execLoop_chain_calls_head (engine : String → String → EngineResult)
    (ts ic p cur : String) (rest : List String) :
    (execLoop engine ts ic true (p :: rest) cur).2.1.head? = some (p, cur) := by
  cases h : engine p cur with
  | ok out => by_cases hne : pyStrip out ≠ "" <;> simp [execLoop, h, hne]
  | calledErr e => simp [execLoop, h]
  | unicodeErr m => simp [execLoop, h]
  | otherErr m => simp [execLoop, h]

/-- C4 counterexample: with a session input whose sanitized form
differs (a double space), the preconditions pass but in non-chain mode
the engine is invoked with the unsanitized original text, not with
`sanitize(initial input)`. -/
theorem c4_counterexample :
    (execute_patterns engineOk "ts" stC4 ["A"] false none).calls = [("A", "a  b")]
    ∧ sanitize_input_content "a  b" = "a b"
    ∧ "a  b" ≠ "a b" := by
  decide

/-- C4 amended: when the provider/model precondition and validation
pass, in chain mode the first engine invocation receives the sanitized
resolved input; in non-chain mode every invocation receives the raw
`st.session_state.input_content`, not the sanitized text. -/
theorem c4_sanitized_input_usage (engine : String → String → EngineResult) (ts : String)
    (st : ExecState) (initial_input : Option String) (p0 : String) (rest : List String)
    (hv : pyTruthy st.vendor = true) (hm : pyTruthy st.model = true)
    (hval : (validate_input_content (resolveInput st initial_input)).1 = true) :
    (execute_patterns engine ts st (p0 :: rest) true initial_input).calls.head?
      = some (p0, sanitize_input_content (resolveInput st initial_input))
    ∧ ∀ pr ∈ (execute_patterns engine ts st (p0 :: rest) false initial_input).calls,
        pr.2 = st.input_content := by
  constructor
  · simp only [execute_patterns, hv, hm, hval]
    simp [execLoop_chain_calls_head]
  · intro pr h
    simp only [execute_patterns, hv, hm, hval] at h
    simp at h
    exact execLoop_nonchain_calls engine ts st.input_content (p0 :: rest)
      (sanitize_input_content (resolveInput st initial_input)) pr h

/-- C4 witness: concrete state where sanitization changes the text;
the chain-mode head invocation carries the sanitized input. -/
theorem c4_witness :
    (execute_patterns engineOk "ts" stC4 ["A"] true none).calls.head?
      = some ("A", sanitize_input_content (resolveInput stC4 none)) :=
  (c4_sanitized_input_usage engineOk "ts" stC4 none "A" []
    (by decide) (by decide) (by decide)).1

/-- C8: the matcher scores the descriptor
`{summarize_git_diff, "summarizes a git diff", [git, vcs]}` at exactly
20 for query "git" with extracts disabled, and any pattern whose
cumulative score is 0 is excluded from the result of `match_patterns`
for every query and catalog. -/
theorem c8_matcher_score_and_exclusion :
    patternScore (lowerList "git".data) gitDesc (fun _ => "") false = 20
    ∧ ∀ (query : String) (metadata : List PatternDescriptor) (extracts : String → String)
        (u : Bool) (p : PatternDescriptor),
        patternScore (lowerList query.data) p extracts u = 0 →
        p ∉ match_patterns query metadata extracts u := by
  constructor
  · have hw : (pyWordsList (lowerList "git".data)).dedup
        = [[Char.ofNat 103, Char.ofNat 105, Char.ofNat 116]] := by decide
    simp only [patternScore, gitDesc]
    rw [hw]
    simp +decide
    norm_num
  · intro query metadata extracts u p hscore hmem
    unfold match_patterns at hmem
    by_cases hq : query.data.isEmpty ∨ metadata.isEmpty
    · rw [if_pos hq] at hmem
      simp at hmem
    · rw [if_neg hq] at hmem
      simp only at hmem
      obtain ⟨x, hx, hxp⟩ := List.mem_map.mp hmem
      have hx2 : x ∈ (metadata.map
          (fun p => (p, patternScore (lowerList query.data) p extracts u))).filter
            (fun x => decide (0 < x.2)) :=
        (List.mergeSort_perm _ _).mem_iff.mp hx
      obtain ⟨hxm, hxpos⟩ := List.mem_filter.mp hx2
      obtain ⟨p2, hp2, hpe⟩ := List.mem_map.mp hxm
      have hpp : p2 = p := by
        rw [← hpe] at hxp
        exact hxp
      have hpos : (0 : ℚ) < x.2 := of_decide_eq_true hxpos
      rw [← hpe] at hpos
      rw [hpp, hscore] at hpos
      exact lt_irrefl 0 hpos

/-- C8 witness: a query scoring 0 against the git descriptor is
excluded from the match result. -/
theorem c8_witness :
    gitDesc ∉ match_patterns "zzzz" [gitDesc] (fun _ => "") false := by
  refine c8_matcher_score_and_exclusion.2 "zzzz" [gitDesc] (fun _ => "") false gitDesc ?_
  have hw : (pyWordsList (lowerList "zzzz".data)).dedup
      = [[Char.ofNat 122, Char.ofNat 122, Char.ofNat 122, Char.ofNat 122]] := by decide
  simp only [patternScore, gitDesc]
  rw [hw]
  simp +decide

/-- C5: `sanitize_input_content` is idempotent — sanitizing an already
sanitized string returns it unchanged, for every input string. -/
theorem c5_sanitize_idempotent (x : String) :
    sanitize_input_content (sanitize_input_content x) = sanitize_input_content x := by
  unfold sanitize_input_content
  rw [show (String.mk (sanitizeList x.data)).data = sanitizeList x.data from rfl,
    sanitizeList_idem]

end Fabric
